import Mathlib

/-!
Verification of the workspace-location resolver and URI-reconstruction engine
of the `vscode_workspace_manager` extension.

The development shallowly embeds the core routines:

* `detectLocation` / `extractWSLDistribution`
  (`src/services/workspaceSyncService.ts`, the operative class, lines 1488-1564),
* `getCorrectWSLDistribution` (`workspaceManager.ts`, lines 41-127),
* the WSL branch of `openWorkspace` (`workspaceManager.ts`, lines 236-352),
* the storage-updating tail of `openWorkspace` together with
  `saveWorkspace` / `incrementTagUsage` (`storage/workspaceStorage.ts`).

Strings are modelled by Lean `String`s (lists of unicode scalar values);
JavaScript string primitives (`split`, first-occurrence `replace`,
`includes`, `startsWith`, regex search) are re-implemented below on
`List Char`.  `decodeURIComponent` is modelled by `tryDecodeURIComponent`,
following the ECMAScript `Decode` algorithm with strict UTF-8 validation;
a thrown `URIError` is modelled by `none`.  The external `wsl -l -q`
process invocation is modelled by an `Option (List String)` argument:
`none` is a failed invocation, `some L` is the decoded, trimmed,
empty-line-filtered list of distribution names.
-/

/-- JavaScript `pat.test`-style containment helper:
`containsSub pat s` is `true` iff `pat` occurs as a contiguous run in `s`
(JS `s.includes(pat)`). -/
def containsSub (pat : List Char) : List Char → Bool
  | [] => pat.isEmpty
  | c :: t => pat.isPrefixOf (c :: t) || containsSub pat t

/-- JS `s.includes(pat)`. -/
def strContains (s pat : String) : Bool :=
  containsSub pat.data s.data

/-- JS `s.startsWith(pat)`. -/
def strStartsWith (s pat : String) : Bool :=
  pat.data.isPrefixOf s.data

/-- JS `s.split(sep)` for a single-character separator. -/
def splitOnChar (sep : Char) : List Char → List (List Char)
  | [] => [[]]
  | c :: t =>
    if c = sep then [] :: splitOnChar sep t
    else
      match splitOnChar sep t with
      | [] => [[c]]
      | h :: r => (c :: h) :: r

/-- JS first-occurrence `s.replace(pat, '')` (string pattern, empty
replacement): deletes the leftmost occurrence of `pat`, if any. -/
def replaceFirstSub (pat : List Char) : List Char → List Char
  | [] => []
  | c :: t =>
    if pat.isPrefixOf (c :: t) then (c :: t).drop pat.length
    else c :: replaceFirstSub pat t

/-- ASCII case folding, modelling `String.prototype.toLowerCase` on the
ASCII distribution names the code compares. -/
def strToLower (s : String) : String :=
  ⟨s.data.map Char.toLower⟩

/-- Value of a hexadecimal digit, `none` for a non-hex character. -/
def hexVal? (c : Char) : Option Nat :=
  if '0' ≤ c ∧ c ≤ '9' then some (c.toNat - '0'.toNat)
  else if 'a' ≤ c ∧ c ≤ 'f' then some (c.toNat - 'a'.toNat + 10)
  else if 'A' ≤ c ∧ c ≤ 'F' then some (c.toNat - 'A'.toNat + 10)
  else none

/-- A token of the ECMAScript `Decode` algorithm: either a character copied
verbatim, or the byte value of one `%XX` escape. -/
inductive PctTok where
  | raw (c : Char)
  | byte (b : Nat)
deriving DecidableEq

/-- First pass of `Decode`: cut the input into verbatim characters and
`%XX` escape bytes; `none` models the `URIError` thrown on a `%` that is
not followed by two hexadecimal digits. -/
def percentTokens : List Char → Option (List PctTok)
  | [] => some []
  | c :: t =>
    if c = '%' then
      match t with
      | c1 :: c2 :: t' =>
        match hexVal? c1, hexVal? c2 with
        | some h1, some h2 => (percentTokens t').map (fun r => PctTok.byte (16 * h1 + h2) :: r)
        | _, _ => none
      | _ => none
    else (percentTokens t).map (fun r => PctTok.raw c :: r)

/-- A UTF-8 continuation byte. -/
def isContByte (b : Nat) : Prop := 0x80 ≤ b ∧ b ≤ 0xBF

instance (b : Nat) : Decidable (isContByte b) := by
  unfold isContByte; infer_instance

/-- Second pass of `Decode`: escape-byte runs must form strict UTF-8
(no overlong forms, no surrogates, at most U+10FFFF), exactly as V8's
`decodeURIComponent` validates; `none` models the thrown `URIError`. -/
def decodeTokens : List PctTok → Option (List Char)
  | [] => some []
  | PctTok.raw c :: t => (decodeTokens t).map (c :: ·)
  | PctTok.byte b :: t =>
    if b < 0x80 then (decodeTokens t).map (Char.ofNat b :: ·)
    else if 0xC2 ≤ b ∧ b ≤ 0xDF then
      match t with
      | PctTok.byte b1 :: t' =>
        if isContByte b1 then
          (decodeTokens t').map (Char.ofNat ((b - 0xC0) * 0x40 + (b1 - 0x80)) :: ·)
        else none
      | _ => none
    else if 0xE0 ≤ b ∧ b ≤ 0xEF then
      match t with
      | PctTok.byte b1 :: PctTok.byte b2 :: t' =>
        if isContByte b1 ∧ isContByte b2 then
          let cp := (b - 0xE0) * 0x1000 + (b1 - 0x80) * 0x40 + (b2 - 0x80)
          if 0x800 ≤ cp ∧ ¬(0xD800 ≤ cp ∧ cp ≤ 0xDFFF) then
            (decodeTokens t').map (Char.ofNat cp :: ·)
          else none
        else none
      | _ => none
    else if 0xF0 ≤ b ∧ b ≤ 0xF4 then
      match t with
      | PctTok.byte b1 :: PctTok.byte b2 :: PctTok.byte b3 :: t' =>
        if isContByte b1 ∧ isContByte b2 ∧ isContByte b3 then
          let cp := (b - 0xF0) * 0x40000 + (b1 - 0x80) * 0x1000 + (b2 - 0x80) * 0x40 + (b3 - 0x80)
          if 0x10000 ≤ cp ∧ cp ≤ 0x10FFFF then
            (decodeTokens t').map (Char.ofNat cp :: ·)
          else none
        else none
      | _ => none
    else none

/-- `decodeURIComponent`, with a thrown `URIError` modelled as `none`. -/
def tryDecodeURIComponent (s : String) : Option String :=
  match percentTokens s.data with
  | none => none
  | some toks =>
    match decodeTokens toks with
    | none => none
    | some cs => some ⟨cs⟩

/-- The `try { decodeURIComponent } catch { keep the original }` idiom used
at both decode sites of the resolver. -/
def decodeOrOriginal (s : String) : String :=
  (tryDecodeURIComponent s).getD s

/-- `WorkspaceLocation.type` in `types.ts`: `'local' | 'wsl' | 'remote'`
(`local'` embeds the string `'local'`, which is a Lean keyword). -/
inductive LocationType where
  | local'
  | wsl
  | remote
deriving DecidableEq

/-- `WorkspaceLocation.details` in `types.ts`: the optional metadata
fields actually set by `detectLocation`. -/
structure LocationDetails where
  wslDistribution : Option String := none
  serverUrl : Option String := none
  driveLetter : Option String := none
deriving DecidableEq

/-- `WorkspaceLocation` in `types.ts`. -/
structure WorkspaceLocation where
  type : LocationType
  displayName : String
  details : LocationDetails
deriving DecidableEq

/-- The literal `\\wsl$\` as a character list. -/
def wslUncLit : List Char := ['\\', '\\', 'w', 's', 'l', '$', '\\']

/-- Leftmost match of the regex `\\\\wsl\$\\([^\\]+)`, returning the
capture group: scan for `\\wsl$\` followed by at least one non-backslash
character; the capture is the maximal run of non-backslash characters. -/
def matchWslUNC : List Char → Option (List Char)
  | [] => none
  | c :: t =>
    if wslUncLit.isPrefixOf (c :: t) then
      let cap := ((c :: t).drop 7).takeWhile (fun x => decide (x ≠ '\\'))
      if cap = [] then matchWslUNC t else some cap
    else matchWslUNC t

/-- Leftmost match of the regex `wsl\+([^:/]+)`, returning the capture
group. -/
def matchWslPlus : List Char → Option (List Char)
  | [] => none
  | c :: t =>
    if ['w', 's', 'l', '+'].isPrefixOf (c :: t) then
      let cap := ((c :: t).drop 4).takeWhile (fun x => decide (x ≠ ':' ∧ x ≠ '/'))
      if cap = [] then matchWslPlus t else some cap
    else matchWslPlus t

/-- `distro.startsWith('wsl+') ? distro.substring(4) : distro`
(`WorkspaceSyncService.extractWSLDistribution`, lines 1547-1550). -/
def stripWslPlus (s : String) : String :=
  if strStartsWith s "wsl+" then ⟨s.data.drop 4⟩ else s

/-- `WorkspaceSyncService.extractWSLDistribution` (lines 1534-1564). -/
def extractWSLDistribution (workspacePath : String) : String :=
  match matchWslUNC workspacePath.data with
  | some cap => stripWslPlus (decodeOrOriginal ⟨cap⟩)
  | none =>
    match matchWslPlus workspacePath.data with
    | some cap => (⟨cap⟩ : String)
    | none =>
      if strContains workspacePath "/mnt/" then "WSL" else "Unknown"

/-- The WSL pattern disjunction of `detectLocation` (lines 1490-1494). -/
def isWSLReference (p : String) : Bool :=
  strStartsWith p "\\\\wsl$\\" || strStartsWith p "/mnt/wsl/" ||
    strContains p "wsl+" || strContains p "/mnt/c/" || strContains p "/mnt/d/"

/-- The remote pattern disjunction of `detectLocation` (lines 1505-1511). -/
def isRemoteReference (p : String) : Bool :=
  strStartsWith p "ssh://" || strContains p "@" || strStartsWith p "github://" ||
    strContains p "ssh-remote" || strContains p "vscode-remote" ||
    strContains p "codespaces" || strContains p "dev-container"

/-- `WorkspaceSyncService.detectLocation` (lines 1488-1529). -/
def detectLocation (workspacePath : String) : WorkspaceLocation :=
  if isWSLReference workspacePath then
    let wslDistribution := extractWSLDistribution workspacePath
    { type := .wsl,
      displayName := if wslDistribution ≠ "Unknown" then "WSL: " ++ wslDistribution else "WSL",
      details := { wslDistribution := some wslDistribution } }
  else if isRemoteReference workspacePath then
    { type := .remote, displayName := "Remote", details := { serverUrl := some workspacePath } }
  else
    { type := .local',
      displayName := "Local",
      details := { driveLetter := some (match workspacePath.data with
        | [] => "C"
        | c :: _ => (⟨[c.toUpper]⟩ : String)) } }

/-- `WorkspaceManager.getCorrectWSLDistribution` (lines 41-127).
The two `wsl -l -q` invocations are modelled by the single `query`
argument: `none` is an `exec` failure, `some L` the decoded UTF-16
output trimmed, line-split and filtered to non-empty names (both call
sites decode the same host state).  The surrounding `try`/`catch` makes
the source total in its argument; the model is total by construction. -/
def getCorrectWSLDistribution (detectedDistro : String) (query : Option (List String)) : String :=
  let fromDefault : Option String :=
    if detectedDistro = "default" ∨ detectedDistro = "Unknown" then
      match query with
      | some lines => lines.head?
      | none => none
    else none
  match fromDefault with
  | some d => d
  | none =>
    match query with
    | some availableDistros =>
      match availableDistros.find? (fun d => decide (d = detectedDistro)) with
      | some exactMatch => exactMatch
      | none =>
        match availableDistros.find? (fun d => decide (strToLower d = strToLower detectedDistro)) with
        | some caseInsensitiveMatch => caseInsensitiveMatch
        | none =>
          match availableDistros with
          | fallbackDistro :: _ => fallbackDistro
          | [] => detectedDistro
    | none => detectedDistro

/-- `workspace.location.details?.wslDistribution || 'default'`
(`openWorkspace`, line 246): JS `||` replaces the falsy empty string with
`'default'` as well as a missing field. -/
def declaredDistro (wslDistribution : Option String) : String :=
  match wslDistribution with
  | some d => if d = "" then "default" else d
  | none => "default"

/-- Lines 253-267 of `openWorkspace`: validate the declared distribution
unless it is one of the sentinels `'default'` / `'Unknown'`. -/
def validatedDistro (wslDistribution : Option String) (query : Option (List String)) : String :=
  let distro := declaredDistro wslDistribution
  if distro ≠ "default" ∧ distro ≠ "Unknown" then getCorrectWSLDistribution distro query
  else distro

/-- Path-normalization of an already-decoded WSL reference
(`openWorkspace`, lines 278-313): UNC split, `/mnt/wsl/` strip,
backslash conversion, and the leading-slash guarantee. -/
def normalizeDecoded (wslPath0 : String) (distro : String) : String :=
  let wslPath :=
    if strStartsWith wslPath0 "\\\\wsl$\\" then
      let parts := splitOnChar '\\' wslPath0.data
      if parts.length ≥ 4 then "/" ++ (⟨List.intercalate ['/'] (parts.drop 4)⟩ : String)
      else wslPath0
    else if strStartsWith wslPath0 "/mnt/wsl/" then
      (⟨replaceFirstSub ("/mnt/wsl/" ++ distro).data wslPath0.data⟩ : String)
    else if strContains wslPath0 "\\" then
      (⟨wslPath0.data.map (fun c => if c = '\\' then '/' else c)⟩ : String)
    else wslPath0
  if strStartsWith wslPath "/" then wslPath else "/" ++ wslPath

/-- Lines 269-313 of `openWorkspace`: percent-decode (falling back to the
original on a decode error), then normalize. -/
def normalizeWSLPath (path : String) (distro : String) : String :=
  normalizeDecoded (decodeOrOriginal path) distro

/-- The launch target constructed by the WSL branch of `openWorkspace`
(lines 315-352): `vscode.Uri.file(wslPath)` for `.code-workspace` files,
`vscode.Uri.parse('vscode-remote://wsl+...')` for folders. -/
inductive LaunchTarget where
  | fileRef (path : String)
  | remoteUri (uri : String)
deriving DecidableEq

/-- The WSL branch of `openWorkspace` as a function from the stored path,
the stored distribution metadata, the workspace-file flag and the host
query result to the launch target. -/
def buildWSLTarget (path : String) (wslDistribution : Option String)
    (isWorkspaceFile : Bool) (query : Option (List String)) : LaunchTarget :=
  let distro := validatedDistro wslDistribution query
  let wslPath := normalizeWSLPath path distro
  if isWorkspaceFile then .fileRef wslPath
  else .remoteUri ("vscode-remote://wsl+" ++ distro ++ wslPath)

/-- `Tag` (`types.ts`), restricted to the fields `incrementTagUsage`
reads or writes. -/
structure Tag where
  name : String
  usageCount : Nat
deriving DecidableEq

/-- `WorkspaceItem` (`types.ts`), restricted to the fields `openWorkspace`
and the storage layer read or write (`type === 'workspace'` is the
Boolean `isWorkspaceFile`; `lastOpened` is an abstract timestamp). -/
structure WorkspaceItem where
  id : String
  name : String
  path : String
  isWorkspaceFile : Bool
  location : WorkspaceLocation
  lastOpened : Nat
  tags : List String
  isFavorite : Bool
  isPinned : Bool
deriving DecidableEq

/-- The stored state behind `WorkspaceStorage`: the `workspaces` and
`tags` entries of the global key-value store. -/
structure Storage where
  workspaces : List WorkspaceItem
  tags : List Tag
deriving DecidableEq

/-- `WorkspaceStorage.getWorkspace` (lines 75-78): first item with the
given id. -/
def getWorkspace (st : Storage) (id : String) : Option WorkspaceItem :=
  st.workspaces.find? (fun w => decide (w.id = id))

/-- `WorkspaceStorage.saveWorkspace` (lines 59-70): replace the first item
with the same id, or append. -/
def upsertWorkspace : List WorkspaceItem → WorkspaceItem → List WorkspaceItem
  | [], w => [w]
  | x :: t, w => if x.id = w.id then w :: t else x :: upsertWorkspace t w

/-- `WorkspaceStorage.saveWorkspace` lifted to the stored state. -/
def saveWorkspace (st : Storage) (w : WorkspaceItem) : Storage :=
  { st with workspaces := upsertWorkspace st.workspaces w }

/-- `WorkspaceStorage.incrementTagUsage` (lines 147-155): bump the first
tag with the given name, no-op when absent. -/
def incrementTagUsage : List Tag → String → List Tag
  | [], _ => []
  | t :: r, n =>
    if t.name = n then { t with usageCount := t.usageCount + 1 } :: r
    else t :: incrementTagUsage r n

/-- The tag-usage loop of `openWorkspace` (lines 392-395). -/
def incrementTagsUsage (st : Storage) (names : List String) : Storage :=
  { st with tags := names.foldl incrementTagUsage st.tags }

/-- `WorkspaceManager.openWorkspace` restricted to its effect on the
stored state (lines 213-427).  `openSucceeds` is the outcome of the
`vscode.openFolder` command; the returned Boolean records whether an
error message was shown.  The storage writes (lines 387-396) sit after
the command inside the `try` block, and every command failure is caught
at line 405. -/
def openWorkspaceModel (st : Storage) (id : String) (now : Nat)
    (openSucceeds : Bool) : Storage × Bool :=
  match getWorkspace st id with
  | none => (st, true)
  | some w =>
    if openSucceeds then
      let st1 := saveWorkspace st { w with lastOpened := now }
      let st2 := incrementTagsUsage st1 w.tags
      (st2, false)
    else (st, true)

example : decodeOrOriginal "wsl%2Bubuntu" = "wsl+ubuntu" := by decide
example : tryDecodeURIComponent "%zz" = none := by decide
example : tryDecodeURIComponent "%e4%bd%a0" = some "你" := by decide
example : tryDecodeURIComponent "%c0%80" = none := by decide
example : extractWSLDistribution "\\\\wsl$\\wsl%2Bubuntu\\root" = "ubuntu" := by decide
example : extractWSLDistribution "vscode-remote://wsl+Ubuntu-20.04/home" = "Ubuntu-20.04" := by decide
example : extractWSLDistribution "/mnt/c/Users/x" = "WSL" := by decide
example : (detectLocation "").details.driveLetter = some "C" := by decide
example : getCorrectWSLDistribution "ubuntu" (some ["Ubuntu"]) = "Ubuntu" := by decide
example : getCorrectWSLDistribution "NonExistent" (some ["Ubuntu"]) = "Ubuntu" := by decide
example : getCorrectWSLDistribution "default" (some ["A", "default"]) = "A" := by decide
example :
    buildWSLTarget "\\\\wsl$\\Ubuntu\\home\\user\\proj" (some "Ubuntu") false (some ["Ubuntu"]) =
      .remoteUri "vscode-remote://wsl+Ubuntu/home/user/proj" := by decide
example :
    buildWSLTarget "\\\\wsl$\\wsl%2Bubuntu\\root\\next-chat\\workspace.code-workspace"
      (some "ubuntu") true (some ["ubuntu"]) =
      .fileRef "/root/next-chat/workspace.code-workspace" := by decide
example :
    normalizeWSLPath "/mnt/wsl/ubuntu/home" "Ubuntu" = "/mnt/wsl/ubuntu/home" := by decide
example : normalizeWSLPath "/mnt/wsl/Ubuntu/home" "Ubuntu" = "/home" := by decide

lemma data_append (a b : String) : (a ++ b).data = a.data ++ b.data := by
  cases a; cases b; rfl

lemma isPrefixOf_append_self (l t : List Char) : l.isPrefixOf (l ++ t) = true := by
  induction l with
  | nil => simp [List.isPrefixOf]
  | cons c cs ih => simp [List.isPrefixOf, ih]

lemma takeWhile_stops (p : Char → Bool) (xs : List Char) (y : Char) (ys : List Char)
    (hxs : ∀ x ∈ xs, p x = true) (hy : p y = false) :
    (xs ++ y :: ys).takeWhile p = xs := by
  induction xs with
  | nil => simp [List.takeWhile_cons, hy]
  | cons a t ih =>
    have ha := hxs a (List.mem_cons_self a t)
    simp [List.takeWhile_cons, ha, ih (fun x hx => hxs x (List.mem_cons_of_mem a hx))]

lemma replaceFirstSub_self (pat t : List Char) (h : pat ≠ []) :
    replaceFirstSub pat (pat ++ t) = t := by
  cases pat with
  | nil => exact absurd rfl h
  | cons c cs =>
    have hpre : (c :: cs).isPrefixOf ((c :: cs) ++ t) = true := isPrefixOf_append_self _ _
    simp only [List.cons_append] at hpre ⊢
    simp [replaceFirstSub, hpre, List.drop_left]

lemma strStartsWith_slash (p : String) (h : strStartsWith p "/" = true) :
    ∃ t, p.data = '/' :: t := by
  unfold strStartsWith at h
  have hlit : "/".data = ['/'] := rfl
  rw [hlit] at h
  cases hd : p.data with
  | nil => rw [hd] at h; simp [List.isPrefixOf] at h
  | cons c t =>
    rw [hd] at h
    simp [List.isPrefixOf] at h
    exact ⟨t, by rw [h]⟩

lemma matchWslUNC_exact (D rest : List Char) (h1 : D ≠ []) (h2 : ∀ c ∈ D, c ≠ '\\') :
    matchWslUNC ('\\' :: '\\' :: 'w' :: 's' :: 'l' :: '$' :: '\\' :: (D ++ '\\' :: rest)) =
      some D := by
  have hpre : wslUncLit.isPrefixOf
      ('\\' :: '\\' :: 'w' :: 's' :: 'l' :: '$' :: '\\' :: (D ++ '\\' :: rest)) = true := by
    exact isPrefixOf_append_self wslUncLit (D ++ '\\' :: rest)
  have htake : (D ++ '\\' :: rest).takeWhile (fun x => decide (x ≠ '\\')) = D :=
    takeWhile_stops _ D '\\' rest (fun x hx => by simpa using h2 x hx) (by decide)
  simp only [matchWslUNC, hpre, if_true, List.drop, htake]
  simp [h1]

/-- C2: any reference matching one of the WSL patterns of `detectLocation`
(UNC `\\wsl$\` prefix, `/mnt/wsl/` prefix, a `wsl+` occurrence, or a
`/mnt/c/` or `/mnt/d/` occurrence) is classified WSL and never Remote,
because the WSL disjunction is tested before the Remote one. -/
theorem wsl_priority_over_remote (ref : String)
    (h : strStartsWith ref "\\\\wsl$\\" = true ∨ strStartsWith ref "/mnt/wsl/" = true ∨
         strContains ref "wsl+" = true ∨ strContains ref "/mnt/c/" = true ∨
         strContains ref "/mnt/d/" = true) :
    (detectLocation ref).type = LocationType.wsl ∧
    (detectLocation ref).type ≠ LocationType.remote := by
  have hw : isWSLReference ref = true := by
    unfold isWSLReference
    rcases h with h | h | h | h | h <;> simp [h]
  refine ⟨by simp [detectLocation, hw], by simp [detectLocation, hw]⟩

/-- Witness for C2 at a reference that contains `wsl+`, `@` and
`ssh-remote` at once. -/
theorem wsl_priority_over_remote_witness :
    strContains "wsl+Ubuntu@host-ssh-remote" "wsl+" = true ∧
    ((detectLocation "wsl+Ubuntu@host-ssh-remote").type = LocationType.wsl ∧
      (detectLocation "wsl+Ubuntu@host-ssh-remote").type ≠ LocationType.remote) :=
  ⟨by decide,
   wsl_priority_over_remote "wsl+Ubuntu@host-ssh-remote" (Or.inr (Or.inr (Or.inl (by decide))))⟩

/-- C6 counterexample: on the empty reference the classifier returns
drive letter `"C"` (the explicit default of line 1525), not the empty
drive letter the claim states. -/
theorem empty_reference_counterexample :
    (detectLocation "").type = LocationType.local' ∧
    (detectLocation "").details.driveLetter = some "C" ∧
    ("C" : String) ≠ "" := by decide

/-- C6 (amended): `classify` applied to the empty string returns kind
Local with drive letter `"C"` in its metadata. -/
theorem empty_reference_local_driveC :
    detectLocation "" =
      { type := .local', displayName := "Local", details := { driveLetter := some "C" } } := by
  decide

/-- C4: the folder reference `\\wsl$\Ubuntu\home\user\proj`, with the
host reporting the distribution list `["Ubuntu"]` (so the validator
returns `Ubuntu` for declared `Ubuntu`), reconstructs to exactly
`vscode-remote://wsl+Ubuntu/home/user/proj`. -/
theorem unc_roundtrip_uri :
    buildWSLTarget "\\\\wsl$\\Ubuntu\\home\\user\\proj" (some "Ubuntu") false (some ["Ubuntu"]) =
      LaunchTarget.remoteUri "vscode-remote://wsl+Ubuntu/home/user/proj" := by decide

/-- C5: the workspace-file reference
`\\wsl$\wsl%2Bubuntu\root\next-chat\workspace.code-workspace` (declared
distribution `ubuntu`, host list `["ubuntu"]`) reconstructs to a
local-style file reference to `/root/next-chat/workspace.code-workspace`
rather than a `vscode-remote://` URI, and every WSL reference with
`isWorkspaceFile = false` reconstructs to
`vscode-remote://wsl+<validatedDistro><canonicalPath>`. -/
theorem workspace_file_target :
    (buildWSLTarget "\\\\wsl$\\wsl%2Bubuntu\\root\\next-chat\\workspace.code-workspace"
        (some "ubuntu") true (some ["ubuntu"]) =
      LaunchTarget.fileRef "/root/next-chat/workspace.code-workspace") ∧
    ∀ (path : String) (d : Option String) (q : Option (List String)),
      buildWSLTarget path d false q =
        LaunchTarget.remoteUri
          ("vscode-remote://wsl+" ++ validatedDistro d q ++
            normalizeWSLPath path (validatedDistro d q)) :=
  ⟨by decide, fun _ _ _ => rfl⟩

/-- C8: when percent-decoding of the reference fails, `openWorkspace`
keeps the original string unchanged and path normalization proceeds on
the undecoded reference; no error escapes (the model is total). -/
theorem decode_failure_fallback (path distro : String)
    (h : tryDecodeURIComponent path = none) :
    decodeOrOriginal path = path ∧
    normalizeWSLPath path distro = normalizeDecoded path distro := by
  have h1 : decodeOrOriginal path = path := by simp [decodeOrOriginal, h]
  exact ⟨h1, by rw [normalizeWSLPath, h1]⟩

/-- Witness for C8 at the malformed escape `%zz`. -/
theorem decode_failure_fallback_witness :
    tryDecodeURIComponent "%zz" = none ∧
    (decodeOrOriginal "%zz" = "%zz" ∧
      normalizeWSLPath "%zz" "Ubuntu" = normalizeDecoded "%zz" "Ubuntu") :=
  ⟨by decide, decode_failure_fallback "%zz" "Ubuntu" (by decide)⟩

/-- C3: every WSL UNC reference `\\wsl$\<D>\<rest>` (with `<D>` a
non-empty backslash-free segment) classifies as WSL with distribution
`<D>` percent-decoded (falling back to `<D>` itself on a decode error)
and `wsl+`-prefix-stripped. -/
theorem classify_wsl_unc (D rest : String) (h1 : D.data ≠ [])
    (h2 : ∀ c ∈ D.data, c ≠ '\\') :
    (detectLocation ("\\\\wsl$\\" ++ D ++ "\\" ++ rest)).type = LocationType.wsl ∧
    (detectLocation ("\\\\wsl$\\" ++ D ++ "\\" ++ rest)).details.wslDistribution =
      some (stripWslPlus (decodeOrOriginal D)) := by
  have hdata : ("\\\\wsl$\\" ++ D ++ "\\" ++ rest).data =
      '\\' :: '\\' :: 'w' :: 's' :: 'l' :: '$' :: '\\' :: (D.data ++ '\\' :: rest.data) := by
    rw [data_append, data_append, data_append]
    have l1 : "\\\\wsl$\\".data = ['\\', '\\', 'w', 's', 'l', '$', '\\'] := rfl
    have l2 : "\\".data = ['\\'] := rfl
    rw [l1, l2]
    simp [List.append_assoc]
  have hmatch : matchWslUNC ("\\\\wsl$\\" ++ D ++ "\\" ++ rest).data = some D.data := by
    rw [hdata]; exact matchWslUNC_exact D.data rest.data h1 h2
  have hwsl : isWSLReference ("\\\\wsl$\\" ++ D ++ "\\" ++ rest) = true := by
    have hsw : strStartsWith ("\\\\wsl$\\" ++ D ++ "\\" ++ rest) "\\\\wsl$\\" = true := by
      unfold strStartsWith
      rw [hdata]
      exact isPrefixOf_append_self "\\\\wsl$\\".data (D.data ++ '\\' :: rest.data)
    simp [isWSLReference, hsw]
  have hext : extractWSLDistribution ("\\\\wsl$\\" ++ D ++ "\\" ++ rest) =
      stripWslPlus (decodeOrOriginal D) := by
    unfold extractWSLDistribution
    rw [hmatch]
  exact ⟨by simp [detectLocation, hwsl], by simp [detectLocation, hwsl, hext]⟩

/-- Witness for C3 at the percent-encoded segment `wsl%2Bubuntu`. -/
theorem classify_wsl_unc_witness :
    (detectLocation ("\\\\wsl$\\" ++ "wsl%2Bubuntu" ++ "\\" ++ "home")).type = LocationType.wsl ∧
    (detectLocation ("\\\\wsl$\\" ++ "wsl%2Bubuntu" ++ "\\" ++ "home")).details.wslDistribution =
      some (stripWslPlus (decodeOrOriginal "wsl%2Bubuntu")) :=
  classify_wsl_unc "wsl%2Bubuntu" "home" (by decide) (by decide)

/-- C7 counterexample: recorded distribution `ubuntu`, host list
`["Ubuntu"]`.  The validator corrects the name to `Ubuntu`, so the code
looks for the literal `/mnt/wsl/Ubuntu` inside `/mnt/wsl/ubuntu/home`,
finds nothing, and leaves the path unchanged — it is not the reference
with the recorded prefix `/mnt/wsl/ubuntu` removed, which would be
`/home`. -/
theorem mnt_wsl_strip_counterexample :
    validatedDistro (some "ubuntu") (some ["Ubuntu"]) = "Ubuntu" ∧
    normalizeWSLPath "/mnt/wsl/ubuntu/home" (validatedDistro (some "ubuntu") (some ["Ubuntu"])) =
      "/mnt/wsl/ubuntu/home" ∧
    ("/mnt/wsl/ubuntu/home" : String) ≠ "/home" := by decide

/-- C7 (amended): for a decoded WSL reference that begins with
`/mnt/wsl/<distro>` — `<distro>` being the validator-corrected
distribution the code passes to normalization, not necessarily the one
recorded in the reference — the canonical path is the reference with
that prefix removed from the front, with a leading `/` ensured. -/
theorem mnt_wsl_strip_validated (distro rest : String)
    (hdec : decodeOrOriginal ("/mnt/wsl/" ++ distro ++ rest) = "/mnt/wsl/" ++ distro ++ rest) :
    normalizeWSLPath ("/mnt/wsl/" ++ distro ++ rest) distro =
      (if strStartsWith rest "/" = true then rest else "/" ++ rest) := by
  have hdata : ("/mnt/wsl/" ++ distro ++ rest).data =
      "/mnt/wsl/".data ++ (distro.data ++ rest.data) := by
    rw [data_append, data_append, List.append_assoc]
  have hunc : strStartsWith ("/mnt/wsl/" ++ distro ++ rest) "\\\\wsl$\\" = false := by
    unfold strStartsWith
    rw [hdata]
    have l1 : "/mnt/wsl/".data = '/' :: "mnt/wsl/".data := rfl
    have l2 : "\\\\wsl$\\".data = '\\' :: "\\wsl$\\".data := rfl
    rw [l1, l2]
    simp [List.isPrefixOf]
  have hmnt : strStartsWith ("/mnt/wsl/" ++ distro ++ rest) "/mnt/wsl/" = true := by
    unfold strStartsWith
    rw [hdata]
    exact isPrefixOf_append_self "/mnt/wsl/".data (distro.data ++ rest.data)
  have hrepl : replaceFirstSub ("/mnt/wsl/" ++ distro).data
      ("/mnt/wsl/" ++ distro ++ rest).data = rest.data := by
    have hp : ("/mnt/wsl/" ++ distro ++ rest).data =
        ("/mnt/wsl/" ++ distro).data ++ rest.data := by
      rw [data_append]
    rw [hp]
    refine replaceFirstSub_self _ _ ?_
    rw [data_append]
    have l1 : "/mnt/wsl/".data = '/' :: "mnt/wsl/".data := rfl
    rw [l1]
    simp
  rw [normalizeWSLPath, hdec]
  unfold normalizeDecoded
  rw [hunc, hmnt, hrepl]
  rfl

/-- Witness for C7 (amended) at `/mnt/wsl/Ubuntu/home`. -/
theorem mnt_wsl_strip_validated_witness :
    decodeOrOriginal ("/mnt/wsl/" ++ "Ubuntu" ++ "/home") = "/mnt/wsl/" ++ "Ubuntu" ++ "/home" ∧
    normalizeWSLPath ("/mnt/wsl/" ++ "Ubuntu" ++ "/home") "Ubuntu" =
      (if strStartsWith "/home" "/" = true then "/home" else "/" ++ "/home") :=
  ⟨by decide, mnt_wsl_strip_validated "Ubuntu" "/home" (by decide)⟩

/-- C9: normalization is idempotent on canonical paths — a reference that
decodes to itself, contains no backslash, is absolute, and does not begin
with `/mnt/wsl/` passes through `openWorkspace`'s normalization
unchanged. -/
theorem normalize_idempotent (p distro : String)
    (hdec : decodeOrOriginal p = p)
    (hnb : strContains p "\\" = false)
    (habs : strStartsWith p "/" = true)
    (hmnt : strStartsWith p "/mnt/wsl/" = false) :
    normalizeWSLPath p distro = p := by
  obtain ⟨t, ht⟩ := strStartsWith_slash p habs
  have hunc : strStartsWith p "\\\\wsl$\\" = false := by
    unfold strStartsWith
    have l2 : "\\\\wsl$\\".data = '\\' :: "\\wsl$\\".data := rfl
    rw [l2, ht]
    simp [List.isPrefixOf]
  rw [normalizeWSLPath, hdec]
  unfold normalizeDecoded
  rw [hunc, hmnt, hnb]
  simp [habs]

/-- Witness for C9 at the canonical path `/home/user`. -/
theorem normalize_idempotent_witness :
    (decodeOrOriginal "/home/user" = "/home/user" ∧
      strContains "/home/user" "\\" = false ∧
      strStartsWith "/home/user" "/" = true ∧
      strStartsWith "/home/user" "/mnt/wsl/" = false) ∧
    normalizeWSLPath "/home/user" "Ubuntu" = "/home/user" :=
  ⟨⟨by decide, by decide, by decide, by decide⟩,
   normalize_idempotent "/home/user" "Ubuntu" (by decide) (by decide) (by decide) (by decide)⟩

/-- C1 counterexample: the claim quantifies over every declared name, but
for the sentinel `'default'` the code's first branch returns the head of
the host list even when the list contains `'default'` exactly. -/
theorem validator_default_counterexample :
    "default" ∈ ["A", "default"] ∧
    getCorrectWSLDistribution "default" (some ["A", "default"]) = "A" ∧
    ("A" : String) ≠ "default" := by decide

/-- C1 (amended): for every declared name `d` other than the sentinels
`'default'` and `'Unknown'`, the validator returns `d` on an exact match,
a case-insensitively matching entry of the host list on a case-insensitive
match, the first list entry when the non-empty list has no match, and `d`
unchanged when the list is empty or the query failed; the query failure
(`none`) is consumed, never re-raised. -/
theorem validator_matching_policy (d : String) (L : List String)
    (hd : d ≠ "default") (hu : d ≠ "Unknown") :
    (d ∈ L → getCorrectWSLDistribution d (some L) = d) ∧
    (d ∉ L → (∃ e ∈ L, strToLower e = strToLower d) →
      getCorrectWSLDistribution d (some L) ∈ L ∧
      strToLower (getCorrectWSLDistribution d (some L)) = strToLower d) ∧
    ((∀ e ∈ L, strToLower e ≠ strToLower d) → L ≠ [] →
      L.head? = some (getCorrectWSLDistribution d (some L))) ∧
    getCorrectWSLDistribution d (some []) = d ∧
    getCorrectWSLDistribution d none = d := by
  refine ⟨?_, ?_, ?_, ?_, ?_⟩
  · intro hmem
    obtain ⟨e, hfind⟩ : ∃ e, L.find? (fun x => decide (x = d)) = some e := by
      have hs : (L.find? (fun x => decide (x = d))).isSome :=
        List.find?_isSome.mpr ⟨d, hmem, by simp⟩
      exact Option.isSome_iff_exists.mp hs
    have he : e = d := by simpa using List.find?_some hfind
    simp [getCorrectWSLDistribution, hd, hu, hfind, he]
  · rintro hnot ⟨e, heL, helow⟩
    have hex : L.find? (fun x => decide (x = d)) = none := by
      refine List.find?_eq_none.mpr ?_
      intro x hx
      simp only [decide_eq_true_eq]
      rintro rfl
      exact hnot hx
    obtain ⟨m, hfind⟩ : ∃ m, L.find? (fun x => decide (strToLower x = strToLower d)) = some m := by
      have hs : (L.find? (fun x => decide (strToLower x = strToLower d))).isSome :=
        List.find?_isSome.mpr ⟨e, heL, by simp [helow]⟩
      exact Option.isSome_iff_exists.mp hs
    have hm1 : m ∈ L := List.mem_of_find?_eq_some hfind
    have hm2 : strToLower m = strToLower d := by simpa using List.find?_some hfind
    constructor
    · simpa [getCorrectWSLDistribution, hd, hu, hex, hfind] using hm1
    · simpa [getCorrectWSLDistribution, hd, hu, hex, hfind] using hm2
  · intro hall hne
    have hex : L.find? (fun x => decide (x = d)) = none := by
      refine List.find?_eq_none.mpr ?_
      intro x hx
      simp only [decide_eq_true_eq]
      rintro rfl
      exact hall x hx rfl
    have hci : L.find? (fun x => decide (strToLower x = strToLower d)) = none := by
      refine List.find?_eq_none.mpr ?_
      intro x hx
      simp only [decide_eq_true_eq]
      exact hall x hx
    cases L with
    | nil => exact absurd rfl hne
    | cons a t => simp [getCorrectWSLDistribution, hd, hu, hex, hci]
  · simp [getCorrectWSLDistribution, hd, hu]
  · simp [getCorrectWSLDistribution, hd, hu]

/-- Witness for C1 (amended): declared `ubuntu` against host list
`["Ubuntu"]`, plus a direct evaluation of the case-insensitive case. -/
theorem validator_matching_policy_witness :
    getCorrectWSLDistribution "ubuntu" (some ["Ubuntu"]) = "Ubuntu" ∧
    (("ubuntu" ∈ (["Ubuntu"] : List String) →
        getCorrectWSLDistribution "ubuntu" (some ["Ubuntu"]) = "ubuntu") ∧
      ("ubuntu" ∉ (["Ubuntu"] : List String) →
        (∃ e ∈ (["Ubuntu"] : List String), strToLower e = strToLower "ubuntu") →
        getCorrectWSLDistribution "ubuntu" (some ["Ubuntu"]) ∈ (["Ubuntu"] : List String) ∧
        strToLower (getCorrectWSLDistribution "ubuntu" (some ["Ubuntu"])) =
          strToLower "ubuntu") ∧
      ((∀ e ∈ (["Ubuntu"] : List String), strToLower e ≠ strToLower "ubuntu") →
        (["Ubuntu"] : List String) ≠ [] →
        (["Ubuntu"] : List String).head? =
          some (getCorrectWSLDistribution "ubuntu" (some ["Ubuntu"]))) ∧
      getCorrectWSLDistribution "ubuntu" (some []) = "ubuntu" ∧
      getCorrectWSLDistribution "ubuntu" none = "ubuntu") :=
  ⟨by decide, validator_matching_policy "ubuntu" ["Ubuntu"] (by decide) (by decide)⟩

/-- Sample stored workspace used by the C10 witness. -/
def sampleWorkspace : WorkspaceItem :=
  { id := "w1", name := "proj", path := "/home/proj", isWorkspaceFile := false,
    location := { type := .local', displayName := "Local",
                  details := { driveLetter := some "C" } },
    lastOpened := 0, tags := ["node"], isFavorite := false, isPinned := false }

/-- Sample stored state used by the C10 witness. -/
def sampleStorage : Storage :=
  { workspaces := [sampleWorkspace], tags := [{ name := "node", usageCount := 0 }] }

/-- C10: `openWorkspace` is atomic with respect to the stored state — when
the open command fails the failure is caught, an error is reported, and
the store is untouched; `lastOpened` and the tag-usage counters are
written only on the success path. -/
theorem openWorkspace_atomic (st : Storage) (id : String) (now : Nat) (w : WorkspaceItem)
    (h : getWorkspace st id = some w) :
    (openWorkspaceModel st id now false).1 = st ∧
    (openWorkspaceModel st id now false).2 = true ∧
    (openWorkspaceModel st id now true).1 =
      incrementTagsUsage (saveWorkspace st { w with lastOpened := now }) w.tags := by
  simp [openWorkspaceModel, h]

/-- Witness for C10 on a one-workspace store. -/
theorem openWorkspace_atomic_witness :
    (openWorkspaceModel sampleStorage "w1" 5 false).1 = sampleStorage ∧
    (openWorkspaceModel sampleStorage "w1" 5 false).2 = true ∧
    (openWorkspaceModel sampleStorage "w1" 5 true).1 =
      incrementTagsUsage (saveWorkspace sampleStorage { sampleWorkspace with lastOpened := 5 })
        sampleWorkspace.tags :=
  openWorkspace_atomic sampleStorage "w1" 5 sampleWorkspace (by decide)
